import Mathlib

/-!
Verification of the lnq-backend order-management core.

The definitions below are shallow embeddings of the TypeScript sources:
  * `src/services/printer.ts`   -- receipt encoder (buildPrinterOutput)
  * `src/routes/printer.ts`     -- print route (joins, fallbacks)
  * `src/routes/orders.ts`      -- order CRUD handlers (create / update /
                                   delete / get), cleanOrderItem / cleanOrder
  * `src/routes/products.ts`    -- product update handler
  * `src/validators.ts`         -- zod request schemas
  * `src/db/schema.ts`          -- table row shapes

JavaScript numbers appearing in the relevant code paths are integers
(prices in minor currency units, ids, quantities), so they are embedded as
`Int` / `Nat`.  Rendering a number with template literals or `toString()`
is embedded by an executable decimal renderer (`natDec` / `intDec`).
-/

/-! ## Decimal rendering of numbers (JS `toString` for integers) -/

/-- Little-endian list of decimal digit characters of `n`; the first
argument is fuel (we always call it with fuel `n`, which suffices since a
positive number loses at least one unit per division by 10). -/
def decDigitsAux : Nat → Nat → List Char
  | _, 0 => []
  | 0, _ + 1 => []
  | f + 1, n + 1 => Char.ofNat (48 + (n + 1) % 10) :: decDigitsAux f ((n + 1) / 10)

/-- Big-endian decimal digit characters of `n` (JS number rendering keeps
a single `0` for zero). -/
def natDecList (n : Nat) : List Char :=
  if n = 0 then ['0'] else (decDigitsAux n n).reverse

/-- Decimal rendering of a natural number, as JS `String(n)` produces. -/
def natDec (n : Nat) : String :=
  String.mk (natDecList n)

/-- Decimal rendering of an integer, as JS `String(i)` produces for an
integral number. -/
def intDec (i : Int) : String :=
  (if i < 0 then "-" else "") ++ natDec i.natAbs

theorem decDigitsAux_zero (f : Nat) : decDigitsAux f 0 = [] := by
  cases f <;> rfl

theorem decDigitsAux_pos (f n : Nat) (hn : 0 < n) (hf : 1 ≤ f) :
    decDigitsAux f n = Char.ofNat (48 + n % 10) :: decDigitsAux (f - 1) (n / 10) := by
  match f, n with
  | f + 1, n + 1 => rfl

theorem digitChar_isDigit (m : Nat) (h : m < 10) :
    (Char.ofNat (48 + m)).isDigit = true := by
  interval_cases m <;> decide

theorem decDigitsAux_all_digits (f : Nat) :
    ∀ n, ∀ c ∈ decDigitsAux f n, c.isDigit = true := by
  induction f with
  | zero => intro n c hc; cases n <;> simp [decDigitsAux] at hc
  | succ f ih =>
      intro n c hc
      cases n with
      | zero => simp [decDigitsAux] at hc
      | succ n =>
          simp only [decDigitsAux, List.mem_cons] at hc
          rcases hc with h | h
          · subst h; exact digitChar_isDigit _ (Nat.mod_lt _ (by norm_num))
          · exact ih _ _ h

theorem natDecList_all_digits (n : Nat) :
    ∀ c ∈ natDecList n, c.isDigit = true := by
  intro c hc
  unfold natDecList at hc
  by_cases h : n = 0
  · simp [h] at hc; subst hc; decide
  · simp [h, List.mem_reverse] at hc
    exact decDigitsAux_all_digits _ _ _ hc

theorem natDecList_ne_nil (n : Nat) : natDecList n ≠ [] := by
  unfold natDecList
  by_cases h : n = 0
  · simp [h]
  · simp only [h, if_false, ne_eq, List.reverse_eq_nil_iff]
    obtain ⟨m, rfl⟩ := Nat.exists_eq_succ_of_ne_zero h
    rw [decDigitsAux_pos _ _ (Nat.succ_pos m) (Nat.one_le_iff_ne_zero.mpr (by omega))]
    simp

/-! Digit-count facts for the ranges the receipt date needs. -/

theorem decDigitsAux_len_one (f n : Nat) (h1 : 1 ≤ n) (h2 : n < 10) (hf : 1 ≤ f) :
    (decDigitsAux f n).length = 1 := by
  rw [decDigitsAux_pos f n h1 hf, Nat.div_eq_of_lt h2, decDigitsAux_zero]
  rfl

theorem decDigitsAux_len_two (f n : Nat) (h1 : 10 ≤ n) (h2 : n < 100) (hf : 2 ≤ f) :
    (decDigitsAux f n).length = 2 := by
  rw [decDigitsAux_pos f n (by omega) (by omega)]
  rw [List.length_cons, decDigitsAux_len_one (f - 1) (n / 10)
    (Nat.le_div_iff_mul_le (by norm_num) |>.mpr (by omega))
    (Nat.div_lt_iff_lt_mul (by norm_num) |>.mpr (by omega)) (by omega)]

theorem decDigitsAux_len_three (f n : Nat) (h1 : 100 ≤ n) (h2 : n < 1000) (hf : 3 ≤ f) :
    (decDigitsAux f n).length = 3 := by
  rw [decDigitsAux_pos f n (by omega) (by omega)]
  rw [List.length_cons, decDigitsAux_len_two (f - 1) (n / 10)
    (Nat.le_div_iff_mul_le (by norm_num) |>.mpr (by omega))
    (Nat.div_lt_iff_lt_mul (by norm_num) |>.mpr (by omega)) (by omega)]

theorem decDigitsAux_len_four (f n : Nat) (h1 : 1000 ≤ n) (h2 : n < 10000) (hf : 4 ≤ f) :
    (decDigitsAux f n).length = 4 := by
  rw [decDigitsAux_pos f n (by omega) (by omega)]
  rw [List.length_cons, decDigitsAux_len_three (f - 1) (n / 10)
    (Nat.le_div_iff_mul_le (by norm_num) |>.mpr (by omega))
    (Nat.div_lt_iff_lt_mul (by norm_num) |>.mpr (by omega)) (by omega)]

theorem natDecList_len_four (n : Nat) (h1 : 1000 ≤ n) (h2 : n < 10000) :
    (natDecList n).length = 4 := by
  unfold natDecList
  rw [if_neg (by omega), List.length_reverse]
  exact decDigitsAux_len_four n n h1 h2 (by omega)

theorem natDecList_len_le_two (n : Nat) (h : n < 100) :
    (natDecList n).length ≤ 2 := by
  unfold natDecList
  by_cases h0 : n = 0
  · simp [h0]
  · rw [if_neg h0, List.length_reverse]
    by_cases h10 : n < 10
    · rw [decDigitsAux_len_one n n (by omega) h10 (by omega)]; omega
    · rw [decDigitsAux_len_two n n (by omega) h (by omega)]

/-! ## Receipt encoder (`src/services/printer.ts`) -/

/-- Calendar/time value as the encoder reads it off a JS `Date`:
`month` is already the 1-based value the source computes as
`date.getMonth() + 1`; `hour` is the 24-hour `getHours()` value. -/
structure DateTime where
  year : Nat
  month : Nat
  day : Nat
  hour : Nat
  minute : Nat
  deriving Repr, DecidableEq

/-- One line item as the print route hands it to the encoder
(`PrinterOrderItem` in the source; `notes` is an optional string array). -/
structure PrinterItem where
  name : String
  quantity : Int
  price : Int
  notes : Option (List String)
  deriving Repr, DecidableEq

/-- The order as the print route hands it to the encoder
(`PrinterOrder` in the source). -/
structure PrinterOrder where
  id : Nat
  customer : String
  date : DateTime
  pickupDate : Option DateTime
  items : List PrinterItem
  deriving Repr, DecidableEq

/-- `value.toString().padStart(2, '0')`. -/
def pad2 (n : Nat) : String :=
  String.mk (List.replicate (2 - (natDec n).length) '0') ++ natDec n

/-- `formatPrintDate` from the source: Y-M-D H:MIN with `pad2` on every
field but the year. -/
def formatPrintDate (d : DateTime) : String :=
  natDec d.year ++ "-" ++ pad2 d.month ++ "-" ++ pad2 d.day ++ " "
    ++ pad2 d.hour ++ ":" ++ pad2 d.minute

/-- Groups a reversed digit list into blocks of three (units first), the
shape `toLocaleString` grouping produces reading from the right. -/
def chunk3 : List Char → List (List Char)
  | [] => []
  | [a] => [[a]]
  | [a, b] => [[a, b]]
  | a :: b :: c :: rest => [a, b, c] :: chunk3 rest

/-- Joins digit groups (given units-first, each group reversed) with a
dot between consecutive groups. -/
def dotJoinRev : List (List Char) → List Char
  | [] => []
  | [g] => g
  | g :: g2 :: rest => g ++ '.' :: dotJoinRev (g2 :: rest)

/-- Decimal digits of `n` with a dot between every group of three,
counted from the right: the `id-ID` locale rendering of a nonnegative
integer that `price.toLocaleString('id-ID')` produces. -/
def idGroup (n : Nat) : String :=
  String.mk (dotJoinRev (chunk3 (natDecList n).reverse)).reverse

/-- `toLocaleString('id-ID')` on an integral JS number. -/
def intLocaleId (i : Int) : String :=
  (if i < 0 then "-" else "") ++ idGroup i.natAbs

/-- `formatPrice` from the source. -/
def formatPrice (price : Int) : String :=
  "Rp" ++ intLocaleId price

/-- Single-character control strings of the encoder. -/
def escS : String := String.mk [Char.ofNat 27]

def gsS : String := String.mk [Char.ofNat 29]

def lfS : String := String.mk [Char.ofNat 10]

def ctl (n : Nat) : String := String.mk [Char.ofNat n]

/-- Fixed-width separator rule of the receipt. -/
def sepLine : String := "------------------------------"

/-- Text the per-item loop body appends for one item (big name line,
reset, quantity/price line, then indented note lines). -/
def itemBlock (it : PrinterItem) : String :=
  gsS ++ "!" ++ ctl 17
    ++ intDec it.quantity ++ "x " ++ it.name ++ lfS
    ++ escS ++ "@"
    ++ " " ++ intDec it.quantity ++ " x " ++ formatPrice it.price
    ++ " = " ++ formatPrice (it.quantity * it.price) ++ lfS
    ++ String.join ((it.notes.getD []).map (fun note => "   (" ++ note ++ ")" ++ lfS))

/-- The item loop: accumulates the printed text and the running total
exactly as the `for` loop in the source does. -/
def itemsLoop (items : List PrinterItem) : String × Int :=
  items.foldl
    (fun acc it => (acc.1 ++ itemBlock it, acc.2 + it.quantity * it.price))
    ("", 0)

/-- The date the receipt prints: `order.pickupDate ?? order.date`. -/
def printDate (o : PrinterOrder) : DateTime :=
  match o.pickupDate with
  | some p => p
  | none => o.date

/-- `buildPrinterOutput` from the source, transcribed append by append;
the accumulated total of the item loop feeds the TOTAL line. -/
def buildPrinterOutput (o : PrinterOrder) : String :=
  escS ++ "@"
    ++ escS ++ "a" ++ ctl 1
    ++ gsS ++ "!" ++ ctl 17
    ++ o.customer ++ lfS ++ lfS
    ++ escS ++ "@"
    ++ escS ++ "a" ++ ctl 1
    ++ formatPrintDate (printDate o) ++ lfS ++ lfS
    ++ escS ++ "a" ++ ctl 0
    ++ sepLine ++ lfS
    ++ (itemsLoop o.items).1
    ++ sepLine ++ lfS
    ++ gsS ++ "!" ++ ctl 17
    ++ "TOTAL " ++ formatPrice (itemsLoop o.items).2 ++ lfS ++ lfS
    ++ escS ++ "@"
    ++ escS ++ "a" ++ ctl 1
    ++ "Thank you" ++ lfS ++ lfS
    ++ gsS ++ "V" ++ ctl 0

/-! ## Storage rows (`src/db/schema.ts`) and request payloads -/

/-- A `products` row.  `price` is `notNull`; `description` / `imageId`
are nullable. -/
structure Product where
  id : Nat
  name : String
  description : Option String
  price : Int
  imageId : Option String
  deriving Repr, DecidableEq

/-- An `orders` row.  `createdAt` has `defaultNow()` but the column is
nullable, which is why the print route writes `order.createdAt ?? new
Date()`. -/
structure OrderRow where
  id : Nat
  customerName : String
  pickupDate : Option DateTime
  notes : Option String
  createdAt : Option DateTime
  deriving Repr, DecidableEq

/-- An `order_items` row: one table shape shared by both item variants,
with the variant recorded in `itemType` and the unused variant's columns
null. -/
structure OrderItemRow where
  id : Nat
  orderId : Nat
  itemType : String
  productId : Option Nat
  amount : Option Int
  notes : Option String
  priceAtSale : Option Int
  customName : Option String
  customPrice : Option Int
  deriving Repr, DecidableEq

/-- The whole storage state the routes read and write.  `nextOrderId` /
`nextItemId` model the serial id sequences. -/
structure DBState where
  products : List Product
  orders : List OrderRow
  orderItems : List OrderItemRow
  nextOrderId : Nat
  nextItemId : Nat
  deriving Repr, DecidableEq

/-- `db.query.products.findFirst({where: eq(products.id, pid)})`. -/
def findProduct (ps : List Product) (pid : Nat) : Option Product :=
  ps.find? (fun p => p.id = pid)

/-- The items stored for one order. -/
def itemsOf (s : DBState) (oid : Nat) : List OrderItemRow :=
  s.orderItems.filter (fun it => it.orderId = oid)

/-- One submitted item object as the order routes read it: every field
access is optional chaining over a JS object, so every field is an
`Option`.  `priceAtSale = some v` stands for a present, non-null,
non-NaN number, matching the `in`/`undefined`/`null`/`isNaN` guard in
the source. -/
structure ItemPayload where
  itemType : Option String
  productId : Option Nat
  amount : Option Int
  notes : Option String
  priceAtSale : Option Int
  customName : Option String
  customPrice : Option Int
  deriving Repr, DecidableEq

/-- Errors the handlers surface (`ValidationError` with an id message,
`ValidationError` with a field map, or a 404). -/
inductive ApiErr where
  | invalidId
  | validation (msg : String)
  | notFound
  deriving Repr, DecidableEq

/-- JS `parseInt(s, 10)`: skip leading whitespace, take an optional
sign, then the longest leading digit run; NaN (here `none`) only when
that run is empty.  Trailing garbage is ignored. -/
def jsParseInt (s : String) : Option Int :=
  let cs := s.data.dropWhile (fun c => c = ' ' || c = '\t' || c = '\n' || c = '\r')
  let signAndRest : Bool × List Char :=
    match cs with
    | '-' :: r => (true, r)
    | '+' :: r => (false, r)
    | _ => (false, cs)
  let ds := signAndRest.2.takeWhile Char.isDigit
  if ds.isEmpty then none
  else
    let n : Nat := ds.foldl (fun acc c => acc * 10 + (c.toNat - 48)) 0
    some (if signAndRest.1 then -(n : Int) else (n : Int))

/-! ## Order creation and item resolution (`src/routes/orders.ts`) -/

/-- Column values of one item row to insert (everything but the serial
id).  Field-for-field the object literals built in the route. -/
structure NewItem where
  orderId : Nat
  itemType : String
  productId : Option Nat
  amount : Option Int
  notes : Option String
  priceAtSale : Option Int
  customName : Option String
  customPrice : Option Int
  deriving Repr, DecidableEq

/-- The per-item branch of the create/update handlers: dispatch on
`item.itemType`, resolve `priceAtSale` (explicit override, else product
lookup, else null), or throw `Invalid item type`. -/
def resolveItem (ps : List Product) (orderId : Nat) (item : ItemPayload) :
    Except ApiErr NewItem :=
  if item.itemType = some "product" then
    let priceAtSale : Option Int :=
      match item.priceAtSale with
      | some v => some v
      | none =>
        match item.productId.bind (findProduct ps) with
        | some p => some p.price
        | none => none
    .ok { orderId := orderId, itemType := "product", productId := item.productId
          amount := item.amount, notes := item.notes, priceAtSale := priceAtSale
          customName := none, customPrice := none }
  else if item.itemType = some "custom" then
    .ok { orderId := orderId, itemType := "custom", productId := none
          amount := none, notes := item.notes, priceAtSale := item.customPrice
          customName := item.customName, customPrice := item.customPrice }
  else
    .error (.validation "Invalid item type")

/-- `Promise.all(data.items.map(...))`: resolves every item or rejects
with the first thrown error, before anything is inserted. -/
def resolveItems (ps : List Product) (orderId : Nat) (items : List ItemPayload) :
    Except ApiErr (List NewItem) :=
  items.mapM (resolveItem ps orderId)

/-- Insertion assigns consecutive serial ids to the resolved rows. -/
def assignIds : Nat → List NewItem → List OrderItemRow
  | _, [] => []
  | start, v :: rest =>
      { id := start, orderId := v.orderId, itemType := v.itemType
        productId := v.productId, amount := v.amount, notes := v.notes
        priceAtSale := v.priceAtSale, customName := v.customName
        customPrice := v.customPrice } :: assignIds (start + 1) rest

/-- The create-order request body after it reaches the handler
(`CreateOrderInput`). -/
structure CreateBody where
  customerName : String
  pickupDate : Option DateTime
  notes : Option String
  items : List ItemPayload
  deriving Repr, DecidableEq

/-- The `orders` row the create handler inserts first: only
`customerName` and `pickupDate` are written; `createdAt` comes from the
column default. -/
def newOrderRow (s : DBState) (now : DateTime) (data : CreateBody) : OrderRow :=
  { id := s.nextOrderId, customerName := data.customerName
    pickupDate := data.pickupDate, notes := none, createdAt := some now }

/-- `POST /api/orders`: insert the order row, then resolve and insert
the items.  There is no transaction: when item resolution throws, the
order row inserted first stays behind (the returned state is the state
at the moment of the throw). -/
def createOrderHandler (s : DBState) (now : DateTime) (data : CreateBody) :
    Except ApiErr Nat × DBState :=
  let row := newOrderRow s now data
  let s1 : DBState :=
    { s with orders := s.orders ++ [row], nextOrderId := s.nextOrderId + 1 }
  match resolveItems s1.products row.id data.items with
  | .error e => (.error e, s1)
  | .ok vals =>
      (.ok row.id,
       { s1 with orderItems := s1.orderItems ++ assignIds s1.nextItemId vals
                 nextItemId := s1.nextItemId + vals.length })

/-! ## Order update / delete / get (`src/routes/orders.ts`) -/

/-- The update-order request body (`UpdateOrderInput`): any subset of
the header fields plus optionally a replacement item list.
`pickupDate = some none` models an explicit JSON `null`. -/
structure UpdateBody where
  customerName : Option String
  pickupDate : Option (Option DateTime)
  notes : Option String
  items : Option (List ItemPayload)
  deriving Repr, DecidableEq

/-- Header fields applied by `db.update(orders).set(updateData)`. -/
def applyHeaderUpdate (o : OrderRow) (data : UpdateBody) : OrderRow :=
  { o with
    customerName := data.customerName.getD o.customerName
    pickupDate := data.pickupDate.getD o.pickupDate
    notes := match data.notes with | some n => some n | none => o.notes }

/-- Whether the body carries any header field (`Object.keys(updateData)
.length > 0`). -/
def headerPresent (data : UpdateBody) : Bool :=
  data.customerName.isSome || data.pickupDate.isSome || data.notes.isSome

/-- The item-replacement half of the update handler: delete every stored
item of the order, then resolve and insert the new ones.  The deletion
is not rolled back when resolution throws. -/
def replaceItemsStep (s : DBState) (oid : Nat) (items : List ItemPayload) :
    Except ApiErr Unit × DBState :=
  let s2 : DBState :=
    { s with orderItems := s.orderItems.filter (fun it => ¬ it.orderId = oid) }
  match resolveItems s2.products oid items with
  | .error e => (.error e, s2)
  | .ok vals =>
      (.ok (),
       { s2 with orderItems := s2.orderItems ++ assignIds s2.nextItemId vals
                 nextItemId := s2.nextItemId + vals.length })

/-- `PUT /api/orders/:id`: parse the id, update or existence-check the
header, then (when `items` is present) replace the whole item
collection. -/
def updateOrderHandler (s : DBState) (idStr : String) (data : UpdateBody) :
    Except ApiErr Unit × DBState :=
  match jsParseInt idStr with
  | none => (.error .invalidId, s)
  | some idInt =>
      if s.orders.any (fun o => (o.id : Int) = idInt) then
        let s1 : DBState :=
          if headerPresent data then
            { s with orders := s.orders.map (fun o =>
                if (o.id : Int) = idInt then applyHeaderUpdate o data else o) }
          else s
        match data.items with
        | none => (.ok (), s1)
        | some its => replaceItemsStep s1 idInt.toNat its
      else (.error .notFound, s)

/-- `DELETE /api/orders/:id`: parse the id, delete the order row
(404 when nothing matched) and, through the `onDelete: 'cascade'`
foreign key, its items. -/
def deleteOrderHandler (s : DBState) (idStr : String) :
    Except ApiErr OrderRow × DBState :=
  match jsParseInt idStr with
  | none => (.error .invalidId, s)
  | some idInt =>
      match s.orders.find? (fun o => (o.id : Int) = idInt) with
      | none => (.error .notFound, s)
      | some row =>
          (.ok row,
           { s with
             orders := s.orders.filter (fun o => ¬ (o.id : Int) = idInt)
             orderItems := s.orderItems.filter (fun it => ¬ (it.orderId : Int) = idInt) })

/-- `GET /api/orders/:id`: parse the id, load the order with its items
(404 when absent).  Reads never change the state. -/
def getOrderHandler (s : DBState) (idStr : String) :
    Except ApiErr (OrderRow × List OrderItemRow) × DBState :=
  match jsParseInt idStr with
  | none => (.error .invalidId, s)
  | some idInt =>
      match s.orders.find? (fun o => (o.id : Int) = idInt) with
      | none => (.error .notFound, s)
      | some row => (.ok (row, itemsOf s row.id), s)

/-! ## Product update (`src/routes/products.ts`) -/

/-- The update-product request body (`UpdateProductInput`). -/
structure UpdateProductBody where
  name : Option String
  description : Option String
  price : Option Int
  imageId : Option String
  deriving Repr, DecidableEq

/-- Fields applied by `db.update(products).set(data)`. -/
def applyProductUpdate (p : Product) (d : UpdateProductBody) : Product :=
  { p with
    name := d.name.getD p.name
    description := match d.description with | some x => some x | none => p.description
    price := d.price.getD p.price
    imageId := match d.imageId with | some x => some x | none => p.imageId }

/-- `PUT /api/products/:id`: parse the id and update the matching
product row; only the `products` table is touched. -/
def updateProductHandler (s : DBState) (idStr : String) (d : UpdateProductBody) :
    Except ApiErr Product × DBState :=
  match jsParseInt idStr with
  | none => (.error .invalidId, s)
  | some idInt =>
      match s.products.find? (fun p => (p.id : Int) = idInt) with
      | none => (.error .notFound, s)
      | some row =>
          (.ok (applyProductUpdate row d),
           { s with products := s.products.map (fun p =>
               if (p.id : Int) = idInt then applyProductUpdate p d else p) })

/-! ## Print route (`src/routes/printer.ts`) -/

/-- The eager join `with: {product: true}` on one item row. -/
def joinProduct (s : DBState) (it : OrderItemRow) : Option Product :=
  match it.productId with
  | some pid => findProduct s.products pid
  | none => none

/-- How the print route maps one stored item (with its joined product)
to a `PrinterItem`: custom items get quantity 1 and `priceAtSale ??
customPrice ?? 0`; product items get `amount ?? 1` and `priceAtSale ??
product?.price ?? 0` with the fallback display name. -/
def routeMapItem (it : OrderItemRow) (prod : Option Product) : PrinterItem :=
  if it.itemType = "custom" then
    { name := it.customName.getD "Custom Item"
      quantity := 1
      price := it.priceAtSale.getD (it.customPrice.getD 0)
      notes := it.notes.map (fun n => [n]) }
  else
    { name := (prod.map Product.name).getD ("Product " ++
        (match it.productId with | some pid => natDec pid | none => "null"))
      quantity := it.amount.getD 1
      price := it.priceAtSale.getD ((prod.map Product.price).getD 0)
      notes := it.notes.map (fun n => [n]) }

/-- The `PrinterOrder` the print route builds from a stored order
(`order.createdAt ?? new Date()` needs the current time). -/
def printableOfOrder (s : DBState) (now : DateTime) (o : OrderRow) : PrinterOrder :=
  { id := o.id
    customer := o.customerName
    date := o.createdAt.getD now
    pickupDate := o.pickupDate
    items := (itemsOf s o.id).map (fun it => routeMapItem it (joinProduct s it)) }

/-- `POST /api/printer/orders/:id/print`: id parsing and lookup exactly
as the other id-addressed routes, then encode the receipt. -/
def printOrderHandler (s : DBState) (now : DateTime) (idStr : String) :
    Except ApiErr String × DBState :=
  match jsParseInt idStr with
  | none => (.error .invalidId, s)
  | some idInt =>
      match s.orders.find? (fun o => (o.id : Int) = idInt) with
      | none => (.error .notFound, s)
      | some row => (.ok (buildPrinterOutput (printableOfOrder s now row)), s)

/-! ## Request validation (`src/validators.ts`, zod) -/

/-- A raw create-order request body before validation: each field is
present or absent, and items are raw objects. -/
structure RawCreateBody where
  customerName : Option String
  pickupDate : Option String
  notes : Option String
  items : Option (List ItemPayload)
  deriving Repr, DecidableEq

/-- Whether a string matches the zod pattern `^\d{4}-\d{2}-\d{2}$`. -/
def isDateShape (s : String) : Bool :=
  match s.data with
  | [a, b, c, d, h1, e, f, h2, g, i] =>
      a.isDigit && b.isDigit && c.isDigit && d.isDigit && h1 = '-' &&
      e.isDigit && f.isDigit && h2 = '-' && g.isDigit && i.isDigit
  | _ => false

/-- The issues zod reports for one item of `createOrderSchema.items`:
`productId` must be a positive integer and `amount` a positive integer;
`notes` is optional.  All other keys (`itemType`, `customName`,
`customPrice`, `priceAtSale`, ...) are not part of the schema and are
stripped, never validated. -/
def itemIssues (item : ItemPayload) : List String :=
  (match item.productId with
   | none => ["Required"]
   | some pid => if pid > 0 then [] else ["Product ID must be positive"])
  ++ (match item.amount with
      | none => ["Required"]
      | some a => if a > 0 then [] else ["Amount must be positive"])

/-- What survives zod parsing of one item: only the schema keys.  The
unknown keys are stripped, so `itemType` and the custom/override fields
come out absent no matter what the caller sent. -/
def stripItem (item : ItemPayload) : ItemPayload :=
  { itemType := none, productId := item.productId, amount := item.amount
    notes := item.notes, priceAtSale := none, customName := none
    customPrice := none }

/-- `createOrderSchema.parseAsync`: succeed with the stripped body, or
fail with the collected issue messages.  Mirrors the zod object:
required non-empty `customerName`, optional date-shaped `pickupDate`,
optional `notes`, required non-empty `items` array of
`{productId, amount, notes?}`. -/
def createOrderSchema (body : RawCreateBody) : Except (List String) CreateBody :=
  let nameIssues :=
    match body.customerName with
    | none => ["Required"]
    | some n => if n.length ≥ 1 then [] else ["Customer name is required"]
  let dateIssues :=
    match body.pickupDate with
    | none => []
    | some d => if isDateShape d then [] else ["Date must be in YYYY-MM-DD format"]
  let itemListIssues :=
    match body.items with
    | none => ["Required"]
    | some its =>
        (if its.length ≥ 1 then [] else ["At least one item is required"])
          ++ its.flatMap itemIssues
  match nameIssues ++ dateIssues ++ itemListIssues with
  | [] =>
      .ok { customerName := body.customerName.getD ""
            pickupDate := none
            notes := body.notes
            items := (body.items.getD []).map stripItem }
  | issues => .error issues

/-! ## Response shaping (`cleanOrderItem` / `cleanOrder`) -/

/-- JSON-ish values of the serialized order, enough to state which keys
appear in the response object. -/
inductive JVal where
  | jnull
  | jnum (n : Int)
  | jstr (s : String)
  | jbool (b : Bool)
  | jobj (fields : List (String × JVal))
  | jarr (elems : List JVal)
  deriving Repr

/-- Whether a value is JSON `null`. -/
def JVal.isNull : JVal → Bool
  | .jnull => true
  | _ => false

/-- Field lookup on a JS object (first matching key). -/
def getField : List (String × JVal) → String → Option JVal
  | [], _ => none
  | (k, v) :: rest, key => if k = key then some v else getField rest key

/-- JS property assignment `obj[key] = v` on our field-list model:
replace the existing key in place, or append it. -/
def setField (fields : List (String × JVal)) (key : String) (v : JVal) :
    List (String × JVal) :=
  if fields.any (fun kv => kv.1 = key) then
    fields.map (fun kv => if kv.1 = key then (key, v) else kv)
  else fields ++ [(key, v)]

/-- Drop every key whose value is `null` (the `delete cleaned[key]`
loop). -/
def dropNullFields (fields : List (String × JVal)) : List (String × JVal) :=
  fields.filter (fun kv => ¬ kv.2.isNull)

/-- The custom-item normalization step of `cleanOrderItem`: when
`itemType` is `custom` and `customPrice` is not a number, set it to 0. -/
def customPriceFix (cleaned : List (String × JVal)) : List (String × JVal) :=
  match getField cleaned "itemType" with
  | some (.jstr t) =>
      if t = "custom" then
        match getField cleaned "customPrice" with
        | some (.jnum _) => cleaned
        | _ => setField cleaned "customPrice" (.jnum 0)
      else cleaned
  | _ => cleaned

/-- The nested-product step of `cleanOrderItem`: drop null fields of the
`product` object when one is present (one level only, despite the
comment in the source). -/
def productFix (cleaned : List (String × JVal)) : List (String × JVal) :=
  match getField cleaned "product" with
  | some (.jobj pf) => setField cleaned "product" (.jobj (dropNullFields pf))
  | _ => cleaned

/-- `cleanOrderItem` from the source: drop null fields, force a numeric
`customPrice` on custom items, and drop null fields of the nested
`product` object. -/
def cleanOrderItem (fields : List (String × JVal)) : List (String × JVal) :=
  productFix (customPriceFix (dropNullFields fields))

/-- `cleanOrder` from the source: keep every header field as stored
(nulls included) and map `cleanOrderItem` over the `items` array. -/
def cleanOrder (fields : List (String × JVal)) : List (String × JVal) :=
  let items :=
    match getField fields "items" with
    | some (.jarr l) =>
        l.map (fun v => match v with
          | .jobj f => JVal.jobj (cleanOrderItem f)
          | other => other)
    | _ => []
  setField fields "items" (.jarr items)

/-! ## Claim theorems -/

/-- C5: price snapshot invariant.  Updating a product touches only the
`products` table, so every stored line item (and in particular its
`priceAtSale`) is untouched; creating an order only appends new item
rows; updating an order without an `items` array leaves the item table
unchanged.  Stored `priceAtSale` values are never recomputed by these
operations. -/
theorem priceAtSale_snapshot_invariant :
    (∀ (s : DBState) (idStr : String) (d : UpdateProductBody),
        ((updateProductHandler s idStr d).2).orderItems = s.orderItems)
    ∧ (∀ (s : DBState) (now : DateTime) (data : CreateBody),
        ∃ tail, ((createOrderHandler s now data).2).orderItems = s.orderItems ++ tail)
    ∧ (∀ (s : DBState) (idStr : String) (data : UpdateBody),
        data.items = none →
        ((updateOrderHandler s idStr data).2).orderItems = s.orderItems) := by
  refine ⟨?_, ?_, ?_⟩
  · intro s idStr d
    unfold updateProductHandler
    split
    · rfl
    · split <;> rfl
  · intro s now data
    unfold createOrderHandler
    dsimp only
    split
    · exact ⟨[], (List.append_nil _).symm⟩
    · exact ⟨assignIds s.nextItemId _, rfl⟩
  · intro s idStr data hnone
    unfold updateOrderHandler
    split
    · rfl
    · split
      · rw [hnone]
        dsimp only
        split <;> rfl
      · rfl

/-- C5 witness: the third conjunct applied at a concrete state and a
body without items. -/
theorem priceAtSale_snapshot_invariant_witness :
    ((updateOrderHandler ⟨[], [⟨1, "A", none, none, none⟩], [⟨1, 1, "product", some 1, some 2, none, some 5, none, none⟩], 2, 2⟩
        "1" ⟨some "B", none, none, none⟩).2).orderItems
      = [⟨1, 1, "product", some 1, some 2, none, some 5, none, none⟩] := by
  have h := priceAtSale_snapshot_invariant.2.2
      ⟨[], [⟨1, "A", none, none, none⟩], [⟨1, 1, "product", some 1, some 2, none, some 5, none, none⟩], 2, 2⟩
      "1" ⟨some "B", none, none, none⟩ rfl
  exact h

/-- C10: for a stored product-tagged item whose `priceAtSale` is null,
the print route does not render the missing snapshot uniformly: it falls
back to the joined product's current catalog price when the product
exists and to 0 only when it does not; a present snapshot is used
verbatim.  The join resolves `productId` against the current catalog. -/
theorem printed_price_fallback :
    (∀ (it : OrderItemRow) (prod : Option Product), ¬ it.itemType = "custom" →
        (it.priceAtSale = none → ∀ p, prod = some p →
            (routeMapItem it prod).price = p.price)
        ∧ (it.priceAtSale = none → prod = none → (routeMapItem it prod).price = 0)
        ∧ (∀ v, it.priceAtSale = some v → (routeMapItem it prod).price = v))
    ∧ (∀ (s : DBState) (it : OrderItemRow) (pid : Nat), it.productId = some pid →
        joinProduct s it = findProduct s.products pid) := by
  constructor
  · intro it prod hTag
    refine ⟨?_, ?_, ?_⟩
    · intro hnone p hp
      simp [routeMapItem, hTag, hnone, hp]
    · intro hnone hp
      simp [routeMapItem, hTag, hnone, hp]
    · intro v hv
      simp [routeMapItem, hTag, hv]
  · intro s it pid hpid
    simp [joinProduct, hpid]

/-- C10 witness: a product item with a null snapshot and an existing
joined product prints that product's current price. -/
theorem printed_price_fallback_witness :
    (routeMapItem ⟨1, 1, "product", some 1, some 2, none, none, none, none⟩
        (some ⟨1, "Espresso", none, 25000, none⟩)).price = 25000 := by
  exact (printed_price_fallback.1
      ⟨1, 1, "product", some 1, some 2, none, none, none, none⟩
      (some ⟨1, "Espresso", none, 25000, none⟩) (by decide)).1 rfl
      ⟨1, "Espresso", none, 25000, none⟩ rfl

/-- C2 (code bug): the request body
`{customerName: "Alice", items: [{itemType: "custom", customName:
"Shipping", customPrice: 10000}]}` is rejected by `createOrderSchema`
with two `Required` issues (`productId` and `amount`), because the zod
schema has no custom variant; the claim (and the route's own swagger
documentation and custom-item branch) say such a request is accepted. -/
theorem customItem_request_rejected_by_schema :
    createOrderSchema
        ⟨some "Alice", none, none,
         some [⟨some "custom", none, none, none, none, some "Shipping", some 10000⟩]⟩
      = .error ["Required", "Required"] := rfl

/-- C8 counterexample: the ids `"0"`, `"-5"` (not positive integers)
parse fine under `parseInt` and fall through to the lookup, producing
NotFound rather than InvalidId, and `"12abc"` (trailing non-digit
suffix) parses as `12` instead of being rejected. -/
theorem idParsing_counterexample :
    jsParseInt "0" = some 0
    ∧ jsParseInt "-5" = some (-5)
    ∧ jsParseInt "12abc" = some 12
    ∧ (getOrderHandler ⟨[], [], [], 1, 1⟩ "0").1 = .error .notFound
    ∧ (getOrderHandler ⟨[], [], [], 1, 1⟩ "-5").1 = .error .notFound
    ∧ (deleteOrderHandler ⟨[], [], [], 1, 1⟩ "0").1 = .error .notFound :=
  ⟨rfl, rfl, rfl, rfl, rfl, rfl⟩

/-- C8 amended: an id yields InvalidId exactly when `parseInt` returns
NaN (no leading digits after optional sign); any id that parses —
including zero, negatives and digit-prefixed garbage — proceeds to the
lookup, giving NotFound when no order matches and success when one
does.  This holds for all four id-addressed operations. -/
theorem idParsing_amended (s : DBState) (now : DateTime) (idStr : String)
    (b : UpdateBody) :
    (jsParseInt idStr = none →
        (getOrderHandler s idStr).1 = .error .invalidId
        ∧ (deleteOrderHandler s idStr).1 = .error .invalidId
        ∧ (updateOrderHandler s idStr b).1 = .error .invalidId
        ∧ (printOrderHandler s now idStr).1 = .error .invalidId)
    ∧ (∀ n : Int, jsParseInt idStr = some n →
        (∀ o ∈ s.orders, ¬ (o.id : Int) = n) →
        (getOrderHandler s idStr).1 = .error .notFound
        ∧ (deleteOrderHandler s idStr).1 = .error .notFound
        ∧ (updateOrderHandler s idStr b).1 = .error .notFound
        ∧ (printOrderHandler s now idStr).1 = .error .notFound)
    ∧ (∀ n : Int, jsParseInt idStr = some n →
        (∃ o ∈ s.orders, (o.id : Int) = n) →
        ∃ r, (getOrderHandler s idStr).1 = .ok r) := by
  refine ⟨?_, ?_, ?_⟩
  · intro hparse
    refine ⟨?_, ?_, ?_, ?_⟩ <;>
      simp [getOrderHandler, deleteOrderHandler, updateOrderHandler,
        printOrderHandler, hparse]
  · intro n hparse habs
    have hfind : s.orders.find? (fun o => (o.id : Int) = n) = none := by
      rw [List.find?_eq_none]
      intro o ho
      simpa using habs o ho
    have hany : s.orders.any (fun o => (o.id : Int) = n) = false := by
      rw [List.any_eq_false]
      intro o ho
      simpa using habs o ho
    refine ⟨?_, ?_, ?_, ?_⟩ <;>
      simp [getOrderHandler, deleteOrderHandler, updateOrderHandler,
        printOrderHandler, hparse, hfind, hany]
  · intro n hparse hex
    have hfind : (s.orders.find? (fun o => (o.id : Int) = n)).isSome := by
      rw [List.find?_isSome]
      obtain ⟨o, ho, h⟩ := hex
      exact ⟨o, ho, by simpa using h⟩
    obtain ⟨row, hrow⟩ := Option.isSome_iff_exists.mp hfind
    exact ⟨(row, itemsOf s row.id), by simp [getOrderHandler, hparse, hrow]⟩

/-- C8 amended witness: a non-numeric id gives InvalidId and an unknown
numeric id gives NotFound, at concrete inputs. -/
theorem idParsing_amended_witness :
    (getOrderHandler ⟨[], [], [], 1, 1⟩ "abc").1 = .error .invalidId
    ∧ (getOrderHandler ⟨[], [], [], 1, 1⟩ "7").1 = .error .notFound := by
  constructor
  · exact ((idParsing_amended ⟨[], [], [], 1, 1⟩ ⟨2026, 1, 1, 0, 0⟩ "abc"
      ⟨none, none, none, none⟩).1 (by decide)).1
  · exact ((idParsing_amended ⟨[], [], [], 1, 1⟩ ⟨2026, 1, 1, 0, 0⟩ "7"
      ⟨none, none, none, none⟩).2.1 7 (by decide) (by simp)).1

/-! Facts about item resolution, used by the create/update claims. -/

theorem resolveItem_ok_orderId (ps : List Product) (oid : Nat) (item : ItemPayload)
    (v : NewItem) (h : resolveItem ps oid item = .ok v) : v.orderId = oid := by
  unfold resolveItem at h
  split at h
  · cases h; rfl
  · split at h
    · cases h; rfl
    · cases h

theorem resolveItem_error_eq (ps : List Product) (oid : Nat) (item : ItemPayload)
    (e : ApiErr) (h : resolveItem ps oid item = .error e) :
    e = .validation "Invalid item type" := by
  unfold resolveItem at h
  split at h
  · cases h
  · split at h
    · cases h
    · cases h; rfl

theorem resolveItem_bad (ps : List Product) (oid : Nat) (item : ItemPayload)
    (h1 : ¬ item.itemType = some "product") (h2 : ¬ item.itemType = some "custom") :
    resolveItem ps oid item = .error (.validation "Invalid item type") := by
  unfold resolveItem
  rw [if_neg h1, if_neg h2]

theorem resolveItem_good (ps : List Product) (oid : Nat) (item : ItemPayload)
    (h : item.itemType = some "product" ∨ item.itemType = some "custom") :
    ∃ v, resolveItem ps oid item = .ok v := by
  unfold resolveItem
  rcases h with h | h
  · rw [if_pos h]; exact ⟨_, rfl⟩
  · by_cases hp : item.itemType = some "product"
    · rw [if_pos hp]; exact ⟨_, rfl⟩
    · rw [if_neg hp, if_pos h]; exact ⟨_, rfl⟩

theorem resolveItems_nil (ps : List Product) (oid : Nat) :
    resolveItems ps oid [] = .ok [] := rfl

theorem resolveItems_cons (ps : List Product) (oid : Nat) (x : ItemPayload)
    (xs : List ItemPayload) :
    resolveItems ps oid (x :: xs) =
      match resolveItem ps oid x with
      | .error e => .error e
      | .ok v =>
        match resolveItems ps oid xs with
        | .error e => .error e
        | .ok vs => .ok (v :: vs) := by
  unfold resolveItems
  rw [List.mapM_cons]
  rcases resolveItem ps oid x with e | v
  · rfl
  · rcases xs.mapM (resolveItem ps oid) with e | vs <;> rfl

theorem resolveItems_ok_of_all_good (ps : List Product) (oid : Nat) :
    ∀ its : List ItemPayload,
      (∀ it ∈ its, it.itemType = some "product" ∨ it.itemType = some "custom") →
      ∃ vals, resolveItems ps oid its = .ok vals ∧ ∀ v ∈ vals, v.orderId = oid := by
  intro its
  induction its with
  | nil => intro _; exact ⟨[], rfl, by simp⟩
  | cons x xs ih =>
      intro h
      obtain ⟨v, hv⟩ := resolveItem_good ps oid x (h x (by simp))
      obtain ⟨vs, hvs, hmem⟩ := ih (fun it hit => h it (by simp [hit]))
      refine ⟨v :: vs, ?_, ?_⟩
      · rw [resolveItems_cons, hv, hvs]
      · intro w hw
        rcases List.mem_cons.mp hw with rfl | hw
        · exact resolveItem_ok_orderId ps oid x w hv
        · exact hmem w hw

theorem resolveItems_error_of_bad (ps : List Product) (oid : Nat) :
    ∀ its : List ItemPayload,
      (∃ bad ∈ its, ¬ bad.itemType = some "product" ∧ ¬ bad.itemType = some "custom") →
      resolveItems ps oid its = .error (.validation "Invalid item type") := by
  intro its
  induction its with
  | nil => rintro ⟨bad, hbad, _⟩; simp at hbad
  | cons x xs ih =>
      rintro ⟨bad, hbad, h1, h2⟩
      rw [resolveItems_cons]
      rcases hx : resolveItem ps oid x with e | v
  
      · rw [resolveItem_error_eq ps oid x e hx]
      · rcases List.mem_cons.mp hbad with rfl | hbad
        · rw [resolveItem_bad ps oid bad h1 h2] at hx; cases hx
        · rw [ih ⟨bad, hbad, h1, h2⟩]

theorem mem_assignIds_orderId (oid : Nat) :
    ∀ (vals : List NewItem) (start : Nat),
      (∀ v ∈ vals, v.orderId = oid) →
      ∀ r ∈ assignIds start vals, r.orderId = oid := by
  intro vals
  induction vals with
  | nil => intro start _ r hr; simp [assignIds] at hr
  | cons v rest ih =>
      intro start h r hr
      rcases List.mem_cons.mp hr with rfl | hr
      · exact h v (by simp)
      · exact ih (start + 1) (fun w hw => h w (by simp [hw])) r hr

/-- C3: for a product-tagged item payload, resolution persists the
caller-supplied `priceAtSale` verbatim when present (including 0), else
the referenced product's current price, else null — and a missing
product never makes the item (or the whole create) fail: with all tags
recognized, creation succeeds regardless of catalog contents. -/
theorem productLine_price_resolution :
    (∀ (ps : List Product) (oid : Nat) (item : ItemPayload),
        item.itemType = some "product" →
        ∃ r, resolveItem ps oid item = .ok r
          ∧ (∀ v, item.priceAtSale = some v → r.priceAtSale = some v)
          ∧ (item.priceAtSale = none → ∀ pid p, item.productId = some pid →
              findProduct ps pid = some p → r.priceAtSale = some p.price)
          ∧ (item.priceAtSale = none → item.productId.bind (findProduct ps) = none →
              r.priceAtSale = none))
    ∧ (∀ (s : DBState) (now : DateTime) (data : CreateBody),
        (∀ it ∈ data.items, it.itemType = some "product" ∨ it.itemType = some "custom") →
        ∃ oid s', createOrderHandler s now data = (.ok oid, s')) := by
  constructor
  · intro ps oid item hTag
    refine ⟨_, by rw [resolveItem, if_pos hTag], ?_, ?_, ?_⟩
    · intro v hv
      simp [hv]
    · intro hnone pid p hpid hfind
      simp [hnone, hpid, hfind]
    · intro hnone hfind
      simp [hnone, hfind]
  · intro s now data hgood
    obtain ⟨vals, hvals, _⟩ :=
      resolveItems_ok_of_all_good s.products (newOrderRow s now data).id
        data.items hgood
    refine ⟨(newOrderRow s now data).id,
      { s with orders := s.orders ++ [newOrderRow s now data]
               nextOrderId := s.nextOrderId + 1
               orderItems := s.orderItems ++ assignIds s.nextItemId vals
               nextItemId := s.nextItemId + vals.length }, ?_⟩
    unfold createOrderHandler
    dsimp only
    rw [hvals]

/-- C3 witness: an explicit zero override is persisted verbatim, at a
concrete payload. -/
theorem productLine_price_resolution_witness :
    ∃ r, resolveItem [] 1 ⟨some "product", some 1, some 2, none, some 0, none, none⟩
        = .ok r ∧ r.priceAtSale = some 0 := by
  obtain ⟨r, hok, hov, _, _⟩ := productLine_price_resolution.1 [] 1
    ⟨some "product", some 1, some 2, none, some 0, none, none⟩ rfl
  exact ⟨r, hok, hov 0 rfl⟩

/-- C4 amended: a create request with an unrecognized item tag fails
the whole request, but the order row inserted before item resolution is
NOT rolled back: it stays behind with zero items (creation is not
atomic, and an order with an empty item collection is reachable). -/
theorem createOrder_bad_tag_leaves_order_row
    (s : DBState) (now : DateTime) (data : CreateBody)
    (hbad : ∃ bad ∈ data.items,
      ¬ bad.itemType = some "product" ∧ ¬ bad.itemType = some "custom") :
    ∃ s', createOrderHandler s now data
        = (.error (.validation "Invalid item type"), s')
      ∧ s'.orders = s.orders ++ [newOrderRow s now data]
      ∧ s'.orderItems = s.orderItems
      ∧ ((∀ it ∈ s.orderItems, ¬ it.orderId = s.nextOrderId) →
          itemsOf s' s.nextOrderId = []) := by
  have herr := resolveItems_error_of_bad s.products (newOrderRow s now data).id
    data.items hbad
  refine ⟨{ s with orders := s.orders ++ [newOrderRow s now data]
                   nextOrderId := s.nextOrderId + 1 }, ?_, rfl, rfl, ?_⟩
  · unfold createOrderHandler
    dsimp only
    rw [herr]
  · intro hfresh
    simp only [itemsOf, List.filter_eq_nil_iff]
    intro it hit
    simpa using hfresh it hit

/-- C4 counterexample: from the empty state, creating an order whose
single item has tag `giftcard` returns the 400 error yet persists order
row 1 with zero items — the claim says nothing is persisted. -/
theorem createOrder_bad_tag_counterexample :
    createOrderHandler ⟨[], [], [], 1, 1⟩ ⟨2026, 1, 5, 10, 0⟩
        ⟨"Alice", none, none, [⟨some "giftcard", none, none, none, none, none, none⟩]⟩
      = (.error (.validation "Invalid item type"),
         ⟨[], [⟨1, "Alice", none, none, some ⟨2026, 1, 5, 10, 0⟩⟩], [], 2, 1⟩)
    ∧ itemsOf ⟨[], [⟨1, "Alice", none, none, some ⟨2026, 1, 5, 10, 0⟩⟩], [], 2, 1⟩ 1 = [] :=
  ⟨rfl, rfl⟩

/-- C4 witness: the amended statement applied at the same concrete
input. -/
theorem createOrder_bad_tag_leaves_order_row_witness :
    ∃ s', createOrderHandler ⟨[], [], [], 1, 1⟩ ⟨2026, 1, 5, 10, 0⟩
        ⟨"Alice", none, none, [⟨some "giftcard", none, none, none, none, none, none⟩]⟩
        = (.error (.validation "Invalid item type"), s')
      ∧ s'.orders = [newOrderRow ⟨[], [], [], 1, 1⟩ ⟨2026, 1, 5, 10, 0⟩
          ⟨"Alice", none, none, [⟨some "giftcard", none, none, none, none, none, none⟩]⟩]
      ∧ itemsOf s' 1 = [] := by
  obtain ⟨s', h1, h2, h3, h4⟩ := createOrder_bad_tag_leaves_order_row
    ⟨[], [], [], 1, 1⟩ ⟨2026, 1, 5, 10, 0⟩
    ⟨"Alice", none, none, [⟨some "giftcard", none, none, none, none, none, none⟩]⟩
    ⟨⟨some "giftcard", none, none, none, none, none, none⟩, by simp, by simp, by simp⟩
  exact ⟨s', h1, by simpa using h2, h4 (by simp)⟩

/-- Behaviour of the delete-then-insert item replacement: on a bad tag
the deletion survives and nothing is inserted; on success the order
ends up with exactly the newly resolved rows. -/
theorem replaceItemsStep_spec (s : DBState) (oid : Nat) (its : List ItemPayload) :
    ((∃ bad ∈ its, ¬ bad.itemType = some "product" ∧ ¬ bad.itemType = some "custom") →
        ∃ s', replaceItemsStep s oid its
            = (.error (.validation "Invalid item type"), s')
          ∧ itemsOf s' oid = [])
    ∧ ((∀ it ∈ its, it.itemType = some "product" ∨ it.itemType = some "custom") →
        ∃ s' vals, replaceItemsStep s oid its = (.ok (), s')
          ∧ resolveItems s.products oid its = .ok vals
          ∧ itemsOf s' oid = assignIds s.nextItemId vals) := by
  constructor
  · intro hbad
    have herr := resolveItems_error_of_bad s.products oid its hbad
    refine ⟨{ s with orderItems := s.orderItems.filter (fun it => ¬ it.orderId = oid) },
      ?_, ?_⟩
    · unfold replaceItemsStep
      dsimp only
      rw [herr]
    · simp only [itemsOf, List.filter_filter, List.filter_eq_nil_iff]
      intro it _
      simp
  · intro hgood
    obtain ⟨vals, hvals, hmem⟩ := resolveItems_ok_of_all_good s.products oid its hgood
    refine ⟨{ s with
        orderItems := s.orderItems.filter (fun it => ¬ it.orderId = oid)
          ++ assignIds s.nextItemId vals
        nextItemId := s.nextItemId + vals.length }, vals, ?_, hvals, ?_⟩
    · unfold replaceItemsStep
      dsimp only
      rw [hvals]
    · simp only [itemsOf, List.filter_append, List.filter_filter]
      rw [List.filter_eq_nil_iff.mpr (by intro it _; simp), List.nil_append]
      rw [List.filter_eq_self.mpr]
      intro r hr
      simp [mem_assignIds_orderId oid vals s.nextItemId hmem r hr]

/-- C1 amended: when an update supplies items, the handler first
deletes the whole stored collection and only then resolves the new
ones; if resolution fails (unrecognized tag) the old collection is
already gone and nothing is inserted, so the order is observable with
an EMPTY item set — neither the complete old set nor the new one.  When
resolution succeeds the replacement is a full replace. -/
theorem updateOrder_items_replace (s : DBState) (idStr : String) (data : UpdateBody)
    (n : Int) (its : List ItemPayload)
    (hparse : jsParseInt idStr = some n)
    (hex : s.orders.any (fun o => (o.id : Int) = n) = true)
    (hitems : data.items = some its) :
    ((∃ bad ∈ its, ¬ bad.itemType = some "product" ∧ ¬ bad.itemType = some "custom") →
        ∃ s', updateOrderHandler s idStr data
            = (.error (.validation "Invalid item type"), s')
          ∧ itemsOf s' n.toNat = [])
    ∧ ((∀ it ∈ its, it.itemType = some "product" ∨ it.itemType = some "custom") →
        ∃ s' vals, updateOrderHandler s idStr data = (.ok (), s')
          ∧ resolveItems s.products n.toNat its = .ok vals
          ∧ itemsOf s' n.toNat = assignIds s.nextItemId vals) := by
  unfold updateOrderHandler
  rw [hparse]
  dsimp only
  rw [hex]
  simp only [if_true, hitems]
  by_cases hp : headerPresent data
  · simp only [hp, if_true]
    exact replaceItemsStep_spec _ n.toNat its
  · simp only [hp, if_false]
    exact replaceItemsStep_spec s n.toNat its

/-- C1 counterexample: order 1 holds one stored item; an update whose
replacement list has an unrecognized tag fails with 400 but leaves the
order with an empty item collection — the previously stored set is NOT
intact. -/
theorem updateOrder_items_replace_counterexample :
    (updateOrderHandler
        ⟨[⟨1, "Espresso", none, 25000, none⟩],
         [⟨1, "Alice", none, none, some ⟨2026, 1, 5, 10, 0⟩⟩],
         [⟨1, 1, "product", some 1, some 2, none, some 25000, none, none⟩], 2, 2⟩
        "1" ⟨none, none, none, some [⟨some "giftcard", none, none, none, none, none, none⟩]⟩).1
      = .error (.validation "Invalid item type")
    ∧ itemsOf ((updateOrderHandler
        ⟨[⟨1, "Espresso", none, 25000, none⟩],
         [⟨1, "Alice", none, none, some ⟨2026, 1, 5, 10, 0⟩⟩],
         [⟨1, 1, "product", some 1, some 2, none, some 25000, none, none⟩], 2, 2⟩
        "1" ⟨none, none, none, some [⟨some "giftcard", none, none, none, none, none, none⟩]⟩).2) 1
      = []
    ∧ itemsOf
        ⟨[⟨1, "Espresso", none, 25000, none⟩],
         [⟨1, "Alice", none, none, some ⟨2026, 1, 5, 10, 0⟩⟩],
         [⟨1, 1, "product", some 1, some 2, none, some 25000, none, none⟩], 2, 2⟩ 1
      = [⟨1, 1, "product", some 1, some 2, none, some 25000, none, none⟩] :=
  ⟨rfl, rfl, rfl⟩

/-- C1 amended witness: the amended statement applied at the concrete
state of the counterexample. -/
theorem updateOrder_items_replace_witness :
    ∃ s', updateOrderHandler
        ⟨[⟨1, "Espresso", none, 25000, none⟩],
         [⟨1, "Alice", none, none, some ⟨2026, 1, 5, 10, 0⟩⟩],
         [⟨1, 1, "product", some 1, some 2, none, some 25000, none, none⟩], 2, 2⟩
        "1" ⟨none, none, none, some [⟨some "giftcard", none, none, none, none, none, none⟩]⟩
      = (.error (.validation "Invalid item type"), s')
    ∧ itemsOf s' 1 = [] := by
  have h := (updateOrder_items_replace
      ⟨[⟨1, "Espresso", none, 25000, none⟩],
       [⟨1, "Alice", none, none, some ⟨2026, 1, 5, 10, 0⟩⟩],
       [⟨1, 1, "product", some 1, some 2, none, some 25000, none, none⟩], 2, 2⟩
      "1" ⟨none, none, none, some [⟨some "giftcard", none, none, none, none, none, none⟩]⟩
      1 [⟨some "giftcard", none, none, none, none, none, none⟩]
      rfl rfl rfl).1
    ⟨⟨some "giftcard", none, none, none, none, none, none⟩, by simp, by simp, by simp⟩
  simpa using h

/-! Facts about the field-list operations behind `cleanOrder`. -/

theorem mem_setField {l : List (String × JVal)} {key : String} {v : JVal}
    {kv : String × JVal} (h : kv ∈ setField l key v) : kv ∈ l ∨ kv = (key, v) := by
  unfold setField at h
  split at h
  · obtain ⟨a, ha, hfa⟩ := List.mem_map.mp h
    by_cases hk : a.1 = key
    · right; rw [if_pos hk] at hfa; exact hfa.symm
    · left; rw [if_neg hk] at hfa; exact hfa ▸ ha
  · rcases List.mem_append.mp h with h | h
    · exact Or.inl h
    · right; simpa using h

theorem mem_setField_of_mem {l : List (String × JVal)} {key : String} {v : JVal}
    {kv : String × JVal} (hne : ¬ kv.1 = key) (h : kv ∈ l) : kv ∈ setField l key v := by
  unfold setField
  split
  · exact List.mem_map.mpr ⟨kv, h, by rw [if_neg hne]⟩
  · exact List.mem_append_left _ h

theorem getField_cons (k0 : String) (v0 : JVal) (rest : List (String × JVal))
    (key : String) :
    getField ((k0, v0) :: rest) key
      = if k0 = key then some v0 else getField rest key := rfl

theorem getField_map_replace (key : String) (v : JVal) :
    ∀ l : List (String × JVal), l.any (fun kv => kv.1 = key) = true →
    getField (l.map (fun kv => if kv.1 = key then (key, v) else kv)) key = some v := by
  intro l
  induction l with
  | nil => intro hany; simp at hany
  | cons kv rest ih =>
      intro hany
      obtain ⟨k0, v0⟩ := kv
      by_cases hk : k0 = key
      · rw [List.map_cons]
        simp only [if_pos hk]
        rw [getField_cons, if_pos rfl]
      · rw [List.map_cons]
        simp only [if_neg hk]
        rw [getField_cons, if_neg hk]
        exact ih (by simpa [List.any_cons, hk] using hany)

theorem getField_append_single (key : String) (v : JVal) :
    ∀ l : List (String × JVal), l.any (fun kv => kv.1 = key) = false →
    getField (l ++ [(key, v)]) key = some v := by
  intro l
  induction l with
  | nil => intro _; rw [List.nil_append, getField_cons, if_pos rfl]
  | cons kv rest ih =>
      intro hany
      obtain ⟨k0, v0⟩ := kv
      have hk : ¬ k0 = key := by
        intro h
        simp [List.any_cons, h] at hany
      rw [List.cons_append, getField_cons, if_neg hk]
      exact ih (by simpa [List.any_cons, hk] using hany)

theorem getField_setField_self (l : List (String × JVal)) (key : String) (v : JVal) :
    getField (setField l key v) key = some v := by
  unfold setField
  split
  case isTrue hany => exact getField_map_replace key v l hany
  case isFalse hany => exact getField_append_single key v l (Bool.eq_false_iff.mpr hany)

theorem getField_map_replace_ne (key key' : String) (v : JVal) (hne : ¬ key' = key) :
    ∀ l : List (String × JVal),
    getField (l.map (fun kv => if kv.1 = key then (key, v) else kv)) key'
      = getField l key' := by
  intro l
  induction l with
  | nil => rfl
  | cons kv rest ih =>
      obtain ⟨k0, v0⟩ := kv
      by_cases hk : k0 = key
      · rw [List.map_cons]
        simp only [if_pos hk]
        rw [getField_cons, getField_cons, if_neg (fun h => hne h.symm),
          if_neg (fun h => hne (hk ▸ h).symm)]
        exact ih
      · rw [List.map_cons]
        simp only [if_neg hk]
        rw [getField_cons, getField_cons]
        by_cases hk' : k0 = key'
        · rw [if_pos hk', if_pos hk']
        · rw [if_neg hk', if_neg hk']
          exact ih

theorem getField_append_single_ne (key key' : String) (v : JVal) (hne : ¬ key' = key) :
    ∀ l : List (String × JVal),
    getField (l ++ [(key, v)]) key' = getField l key' := by
  intro l
  induction l with
  | nil =>
      rw [List.nil_append, getField_cons, if_neg (fun h => hne h.symm)]
  | cons kv rest ih =>
      obtain ⟨k0, v0⟩ := kv
      rw [List.cons_append, getField_cons, getField_cons]
      by_cases hk' : k0 = key'
      · rw [if_pos hk', if_pos hk']
      · rw [if_neg hk', if_neg hk']
        exact ih

theorem getField_setField_ne (l : List (String × JVal)) (key key' : String) (v : JVal)
    (hne : ¬ key' = key) : getField (setField l key v) key' = getField l key' := by
  unfold setField
  split
  · exact getField_map_replace_ne key key' v hne l
  · exact getField_append_single_ne key key' v hne l

theorem not_null_mem_dropNullFields (l : List (String × JVal)) (k : String) :
    (k, JVal.jnull) ∉ dropNullFields l := by
  intro h
  have := (List.mem_filter.mp h).2
  simp [JVal.isNull] at this

theorem customPriceFix_no_null (c : List (String × JVal)) (k : String)
    (h : (k, JVal.jnull) ∉ c) : (k, JVal.jnull) ∉ customPriceFix c := by
  intro hmem
  unfold customPriceFix at hmem
  split at hmem
  · split at hmem
    · split at hmem
      · exact h hmem
      · rcases mem_setField hmem with hm | hm
        · exact h hm
        · simp at hm
    · exact h hmem
  · exact h hmem

theorem productFix_no_null (c : List (String × JVal)) (k : String)
    (h : (k, JVal.jnull) ∉ c) : (k, JVal.jnull) ∉ productFix c := by
  intro hmem
  unfold productFix at hmem
  split at hmem
  · rcases mem_setField hmem with hm | hm
    · exact h hm
    · simp at hm
  · exact h hmem

theorem cleanOrderItem_no_null (f : List (String × JVal)) (k : String) :
    (k, JVal.jnull) ∉ cleanOrderItem f :=
  productFix_no_null _ k (customPriceFix_no_null _ k (not_null_mem_dropNullFields f k))

theorem productFix_product_clean (c : List (String × JVal))
    (pf : List (String × JVal))
    (h : getField (productFix c) "product" = some (.jobj pf)) :
    ∀ k, (k, JVal.jnull) ∉ pf := by
  unfold productFix at h
  split at h
  case h_1 pf0 heq =>
    rw [getField_setField_self] at h
    have : JVal.jobj (dropNullFields pf0) = JVal.jobj pf := by injection h
    have hpf : dropNullFields pf0 = pf := by injection this
    intro k
    rw [← hpf]
    exact not_null_mem_dropNullFields pf0 k
  case h_2 hno =>
    exact absurd h (hno pf)

theorem getField_productFix_ne (c : List (String × JVal)) (key : String)
    (h : ¬ key = "product") : getField (productFix c) key = getField c key := by
  unfold productFix
  split
  · rw [getField_setField_ne _ _ _ _ h]
  · rfl

theorem cleanOrderItem_custom_numeric (f : List (String × JVal))
    (h : getField (dropNullFields f) "itemType" = some (.jstr "custom")) :
    ∃ n : Int, getField (cleanOrderItem f) "customPrice" = some (.jnum n) := by
  unfold cleanOrderItem customPriceFix
  rw [h]
  dsimp only
  rw [if_pos rfl]
  split
  case h_1 n heq =>
    exact ⟨n, by rw [getField_productFix_ne _ _ (by decide), heq]⟩
  case h_2 =>
    exact ⟨0, by rw [getField_productFix_ne _ _ (by decide), getField_setField_self]⟩

/-- C9 counterexample: `cleanOrder` maps `cleanOrderItem` over the
items but spreads the order header unchanged, so a null `notes` or
`pickupDate` on the order itself is still present (as JSON null) in the
returned representation — the omission does NOT apply to the header. -/
theorem cleanOrder_header_null_counterexample :
    getField (cleanOrder
        [("id", .jnum 10), ("customerName", .jstr "Alice"),
         ("pickupDate", .jnull), ("notes", .jnull),
         ("items", .jarr [.jobj [("id", .jnum 100), ("productId", .jnull),
            ("notes", .jnull), ("priceAtSale", .jnum 25000)]])])
      "notes" = some JVal.jnull
    ∧ getField (cleanOrder
        [("id", .jnum 10), ("customerName", .jstr "Alice"),
         ("pickupDate", .jnull), ("notes", .jnull),
         ("items", .jarr [.jobj [("id", .jnum 100), ("productId", .jnull),
            ("notes", .jnull), ("priceAtSale", .jnum 25000)]])])
      "pickupDate" = some JVal.jnull :=
  ⟨rfl, rfl⟩

/-- C9 amended: null-field omission holds for the item objects (no null
field survives `cleanOrderItem`, so a custom item never shows a null
`productId`), for the nested joined product object, and `customPrice`
on a custom item always comes out numeric (defaulting to 0); but the
order header's own fields pass through `cleanOrder` untouched, nulls
included. -/
theorem cleanOrder_null_omission_amended :
    (∀ (l : List (String × JVal)) (k : String) (v : JVal), ¬ k = "items" →
        ((k, v) ∈ cleanOrder l ↔ (k, v) ∈ l))
    ∧ (∀ (f : List (String × JVal)) (k : String), (k, JVal.jnull) ∉ cleanOrderItem f)
    ∧ (∀ (f pf : List (String × JVal)),
        getField (cleanOrderItem f) "product" = some (.jobj pf) →
        ∀ k, (k, JVal.jnull) ∉ pf)
    ∧ (∀ f, getField (dropNullFields f) "itemType" = some (.jstr "custom") →
        ∃ n : Int, getField (cleanOrderItem f) "customPrice" = some (.jnum n)) := by
  refine ⟨?_, cleanOrderItem_no_null, ?_, cleanOrderItem_custom_numeric⟩
  · intro l k v hk
    constructor
    · intro h
      rcases mem_setField h with h | h
      · exact h
      · exact absurd (congrArg Prod.fst h) hk
    · intro h
      exact mem_setField_of_mem hk h
  · intro f pf h
    exact productFix_product_clean _ pf h

/-- C9 amended witness: a custom item whose stored `customPrice` is
null comes out with a numeric `customPrice`. -/
theorem cleanOrder_null_omission_amended_witness :
    ∃ n : Int, getField
        (cleanOrderItem [("itemType", JVal.jstr "custom"), ("customPrice", JVal.jnull)])
        "customPrice" = some (.jnum n) :=
  cleanOrder_null_omission_amended.2.2.2 _ rfl

/-! Facts about the date rendering, used by the receipt-date claim. -/

theorem data_mk (l : List Char) : (String.mk l).data = l := rfl

theorem length_mk (l : List Char) : (String.mk l).length = l.length := rfl

theorem natDec_digits (n : Nat) : ∀ c ∈ (natDec n).data, c.isDigit = true := by
  intro c hc
  exact natDecList_all_digits n c hc

theorem pad2_spec (n : Nat) (h : n < 100) :
    (pad2 n).length = 2 ∧ ∀ c ∈ (pad2 n).data, c.isDigit = true := by
  have hlen : (natDec n).length ≤ 2 := natDecList_len_le_two n h
  constructor
  · unfold pad2
    rw [String.length_append, length_mk, List.length_replicate]
    omega
  · intro c hc
    unfold pad2 at hc
    rw [String.data_append, data_mk] at hc
    rcases List.mem_append.mp hc with hc | hc
    · rw [List.eq_of_mem_replicate hc]; decide
    · exact natDec_digits n c hc

theorem natDec_year_spec (y : Nat) (h1 : 1000 ≤ y) (h2 : y < 10000) :
    (natDec y).length = 4 ∧ ∀ c ∈ (natDec y).data, c.isDigit = true :=
  ⟨by rw [natDec, length_mk]; exact natDecList_len_four y h1 h2, natDec_digits y⟩

/-- C6 counterexample: the pickup date `0999-12-31` passes the zod
pattern `\d{4}-\d{2}-\d{2}` and reaches the encoder as year 999, but
`formatPrintDate` never pads the year (`date.getFullYear()` is rendered
as-is), so the printed date line has a 3-digit year — not the claimed
exact `YYYY-MM-DD HH:MM` shape (its length is 15, not 16). -/
theorem receipt_date_line_counterexample :
    printDate ⟨10, "Alice", ⟨2026, 1, 4, 12, 30⟩, some ⟨999, 12, 31, 23, 5⟩, []⟩
        = ⟨999, 12, 31, 23, 5⟩
    ∧ formatPrintDate ⟨999, 12, 31, 23, 5⟩ = "999-12-31 23:05"
    ∧ (formatPrintDate ⟨999, 12, 31, 23, 5⟩).length = 15 :=
  ⟨rfl, rfl, rfl⟩

/-- C6 amended: the receipt prints `pickupDate` when present, else the
order creation timestamp (else the request time, since `createdAt` is a
nullable column), followed by a blank line (two line feeds); month,
day, hour and minute are zero-padded to exactly two digits, but the
year is rendered unpadded, so the line has the exact
`YYYY-MM-DD HH:MM` shape exactly when the year has four digits
(1000-9999) — years below 1000 are reachable and print shorter. -/
theorem receipt_date_line (o : PrinterOrder)
    (hy1 : 1000 ≤ (printDate o).year) (hy2 : (printDate o).year < 10000)
    (hm : (printDate o).month < 100) (hd : (printDate o).day < 100)
    (hh : (printDate o).hour < 100) (hmin : (printDate o).minute < 100) :
    (∃ pre post, buildPrinterOutput o
        = pre ++ (formatPrintDate (printDate o) ++ (lfS ++ (lfS ++ post))))
    ∧ (o.pickupDate = none → printDate o = o.date)
    ∧ (∀ p, o.pickupDate = some p → printDate o = p)
    ∧ (∃ y mo dd hr mi, formatPrintDate (printDate o)
          = y ++ "-" ++ mo ++ "-" ++ dd ++ " " ++ hr ++ ":" ++ mi
        ∧ y.length = 4 ∧ mo.length = 2 ∧ dd.length = 2
        ∧ hr.length = 2 ∧ mi.length = 2
        ∧ (∀ c ∈ y.data, c.isDigit = true) ∧ (∀ c ∈ mo.data, c.isDigit = true)
        ∧ (∀ c ∈ dd.data, c.isDigit = true) ∧ (∀ c ∈ hr.data, c.isDigit = true)
        ∧ (∀ c ∈ mi.data, c.isDigit = true))
    ∧ (∀ (s : DBState) (now : DateTime) (r : OrderRow),
        (printableOfOrder s now r).pickupDate = r.pickupDate
        ∧ (printableOfOrder s now r).date = r.createdAt.getD now) := by
  refine ⟨?_, ?_, ?_, ?_, ?_⟩
  · refine ⟨escS ++ "@" ++ escS ++ "a" ++ ctl 1 ++ gsS ++ "!" ++ ctl 17
      ++ o.customer ++ lfS ++ lfS ++ escS ++ "@" ++ escS ++ "a" ++ ctl 1,
      escS ++ "a" ++ ctl 0 ++ sepLine ++ lfS ++ (itemsLoop o.items).1
      ++ sepLine ++ lfS ++ gsS ++ "!" ++ ctl 17
      ++ "TOTAL " ++ formatPrice (itemsLoop o.items).2 ++ lfS ++ lfS
      ++ escS ++ "@" ++ escS ++ "a" ++ ctl 1
      ++ "Thank you" ++ lfS ++ lfS ++ gsS ++ "V" ++ ctl 0, ?_⟩
    simp only [buildPrinterOutput, String.append_assoc]
  · intro h; simp [printDate, h]
  · intro p h; simp [printDate, h]
  · obtain ⟨hmolen, hmodig⟩ := pad2_spec (printDate o).month hm
    obtain ⟨hddlen, hdddig⟩ := pad2_spec (printDate o).day hd
    obtain ⟨hhrlen, hhrdig⟩ := pad2_spec (printDate o).hour hh
    obtain ⟨hmilen, hmidig⟩ := pad2_spec (printDate o).minute hmin
    obtain ⟨hylen, hydig⟩ := natDec_year_spec (printDate o).year hy1 hy2
    exact ⟨natDec (printDate o).year, pad2 (printDate o).month,
      pad2 (printDate o).day, pad2 (printDate o).hour, pad2 (printDate o).minute,
      rfl, hylen, hmolen, hddlen, hhrlen, hmilen,
      hydig, hmodig, hdddig, hhrdig, hmidig⟩
  · intro s now r
    exact ⟨rfl, rfl⟩

/-- C6 witness: the date line statement at a concrete printed order
with a pickup date. -/
theorem receipt_date_line_witness :
    ∃ pre post,
      buildPrinterOutput ⟨10, "Alice", ⟨2026, 1, 4, 12, 30⟩, some ⟨2026, 1, 5, 9, 7⟩, []⟩
        = pre ++ (formatPrintDate
            (printDate ⟨10, "Alice", ⟨2026, 1, 4, 12, 30⟩, some ⟨2026, 1, 5, 9, 7⟩, []⟩)
            ++ (lfS ++ (lfS ++ post))) :=
  (receipt_date_line ⟨10, "Alice", ⟨2026, 1, 4, 12, 30⟩, some ⟨2026, 1, 5, 9, 7⟩, []⟩
    (by decide) (by decide) (by decide) (by decide) (by decide) (by decide)).1

/-! Facts about the running total and the currency grouping, used by
the grand-total claim. -/

theorem itemsLoop_total_aux (items : List PrinterItem) :
    ∀ a : String × Int,
      (items.foldl
        (fun acc it => (acc.1 ++ itemBlock it, acc.2 + it.quantity * it.price)) a).2
        = a.2 + (items.map (fun it => it.quantity * it.price)).sum := by
  induction items with
  | nil => intro a; simp
  | cons x xs ih =>
      intro a
      rw [List.foldl_cons, ih]
      simp [add_assoc]

theorem itemsLoop_total (items : List PrinterItem) :
    (itemsLoop items).2 = (items.map (fun it => it.quantity * it.price)).sum := by
  unfold itemsLoop
  rw [itemsLoop_total_aux]
  simp

theorem chunk3_eq_nil (l : List Char) : chunk3 l = [] ↔ l = [] := by
  constructor
  · intro h
    match l with
    | [] => rfl
    | [a] => simp [chunk3] at h
    | [a, b] => simp [chunk3] at h
    | a :: b :: c :: rest => simp [chunk3] at h
  · intro h; rw [h]; rfl

theorem chunk3_flatten (l : List Char) : (chunk3 l).flatten = l := by
  induction l using chunk3.induct with
  | case1 => rfl
  | case2 a => rfl
  | case3 a b => rfl
  | case4 a b c rest ih => simp [chunk3, ih]

theorem chunk3_mem (l : List Char) :
    ∀ g ∈ chunk3 l, ∀ c ∈ g, c ∈ l := by
  induction l using chunk3.induct with
  | case1 => intro g hg; simp [chunk3] at hg
  | case2 a =>
      intro g hg c hc
      simp [chunk3] at hg
      subst hg
      simpa using hc
  | case3 a b =>
      intro g hg c hc
      simp [chunk3] at hg
      subst hg
      simpa using hc
  | case4 a b c rest ih =>
      intro g hg d hd
      rcases List.mem_cons.mp hg with rfl | hg
      · simp only [List.mem_cons, List.not_mem_nil, or_false] at hd
        rcases hd with rfl | rfl | rfl <;> simp
      · have := ih g hg d hd
        simp [this]

theorem mem_dotJoinRev (L : List (List Char)) :
    ∀ c ∈ dotJoinRev L, c = '.' ∨ ∃ g ∈ L, c ∈ g := by
  induction L using dotJoinRev.induct with
  | case1 => intro c hc; simp [dotJoinRev] at hc
  | case2 g => intro c hc; exact Or.inr ⟨g, by simp, hc⟩
  | case3 g g2 rest ih =>
      intro c hc
      rw [dotJoinRev] at hc
      rcases List.mem_append.mp hc with hc | hc
      · exact Or.inr ⟨g, by simp, hc⟩
      · rcases List.mem_cons.mp hc with rfl | hc
        · exact Or.inl rfl
        · rcases ih c hc with h | ⟨g', hg', hcg⟩
          · exact Or.inl h
          · exact Or.inr ⟨g', by simp [hg'], hcg⟩

theorem isDigit_ne_dot (c : Char) (h : c.isDigit = true) : ¬ c = '.' := by
  intro he
  subst he
  exact absurd h (by decide)

theorem filter_dotJoinRev (L : List (List Char))
    (hdig : ∀ g ∈ L, ∀ c ∈ g, c.isDigit = true) :
    (dotJoinRev L).filter (fun c => ¬ c = '.') = L.flatten := by
  induction L using dotJoinRev.induct with
  | case1 => rfl
  | case2 g =>
      rw [dotJoinRev]
      rw [List.filter_eq_self.mpr]
      · simp
      · intro c hc
        simp [isDigit_ne_dot c (hdig g (by simp) c hc)]
  | case3 g g2 rest ih =>
      rw [dotJoinRev, List.filter_append]
      rw [List.filter_eq_self.mpr (by
        intro c hc
        simp [isDigit_ne_dot c (hdig g (by simp) c hc)])]
      have hdot : (fun c => decide (¬ c = '.')) '.' = false := by decide
      rw [List.filter_cons_of_neg (by simp [hdot])]
      rw [ih (fun g' hg' => hdig g' (by simp [hg']))]
      simp

/-- Checks, reading a rendered price from the units end, that a dot
occurs after every three digits and everything else is a digit: the
shape of thousands grouping. -/
def revGrouped : Nat → List Char → Bool
  | _, [] => true
  | k, c :: rest =>
      if k = 3 then c = '.' && revGrouped 0 rest
      else c.isDigit && revGrouped (k + 1) rest

theorem revGrouped_dotJoinRev (l : List Char)
    (hdig : ∀ c ∈ l, c.isDigit = true) :
    revGrouped 0 (dotJoinRev (chunk3 l)) = true := by
  induction l using chunk3.induct with
  | case1 => rfl
  | case2 a =>
      simp [chunk3, dotJoinRev, revGrouped, hdig a (by simp)]
  | case3 a b =>
      simp [chunk3, dotJoinRev, revGrouped, hdig a (by simp), hdig b (by simp)]
  | case4 a b c rest ih =>
      have ha := hdig a (by simp)
      have hb := hdig b (by simp)
      have hc := hdig c (by simp)
      rw [chunk3]
      rcases hrest : chunk3 rest with _ | ⟨g2, L2⟩
      · have : rest = [] := (chunk3_eq_nil rest).mp hrest
        simp [dotJoinRev, revGrouped, ha, hb, hc]
      · rw [dotJoinRev]
        have hih := ih (fun d hd => hdig d (by simp [hd]))
        rw [hrest] at hih
        simp [revGrouped, ha, hb, hc, hih]

theorem empty_append_str (s : String) : "" ++ s = s := by
  cases s with
  | mk d => rfl

/-- C7: the grand total printed after the second separator is the item
loop's accumulated sum of `quantity * price` over the printed items
(all `Int` arithmetic), custom items are mapped to quantity 1 by the
print route, and a nonnegative price renders as `Rp` plus its decimal
digits grouped in threes from the right by dots, with no other
characters (in particular no decimal portion); two units at 25000 total
50000, rendered `Rp50.000`. -/
theorem receipt_grand_total (o : PrinterOrder) :
    (∃ pre post, buildPrinterOutput o
        = pre ++ (sepLine ++ (lfS ++ (gsS ++ ("!" ++ (ctl 17 ++ ("TOTAL "
            ++ (formatPrice (itemsLoop o.items).2 ++ post))))))))
    ∧ (itemsLoop o.items).2 = (o.items.map (fun it => it.quantity * it.price)).sum
    ∧ (∀ (it : OrderItemRow) (prod : Option Product), it.itemType = "custom" →
        (routeMapItem it prod).quantity = 1)
    ∧ (∀ i : Int, 0 ≤ i →
        formatPrice i = "Rp" ++ idGroup i.natAbs
        ∧ (∀ c ∈ (idGroup i.natAbs).data, c.isDigit = true ∨ c = '.')
        ∧ (idGroup i.natAbs).data.filter (fun c => ¬ c = '.') = natDecList i.natAbs
        ∧ revGrouped 0 ((idGroup i.natAbs).data.reverse) = true)
    ∧ formatPrice 50000 = "Rp50.000"
    ∧ (itemsLoop [⟨"Espresso", 2, 25000, none⟩]).2 = 50000 := by
  refine ⟨?_, itemsLoop_total o.items, ?_, ?_, by decide, by decide⟩
  · refine ⟨escS ++ "@" ++ escS ++ "a" ++ ctl 1 ++ gsS ++ "!" ++ ctl 17
      ++ o.customer ++ lfS ++ lfS ++ escS ++ "@" ++ escS ++ "a" ++ ctl 1
      ++ formatPrintDate (printDate o) ++ lfS ++ lfS ++ escS ++ "a" ++ ctl 0
      ++ sepLine ++ lfS ++ (itemsLoop o.items).1,
      lfS ++ lfS ++ escS ++ "@" ++ escS ++ "a" ++ ctl 1
      ++ "Thank you" ++ lfS ++ lfS ++ gsS ++ "V" ++ ctl 0, ?_⟩
    simp only [buildPrinterOutput, String.append_assoc]
  · intro it prod h
    simp [routeMapItem, h]
  · intro i hi
    have hR : ∀ c ∈ (natDecList i.natAbs).reverse, c.isDigit = true := by
      intro c hc
      exact natDecList_all_digits i.natAbs c (List.mem_reverse.mp hc)
    have hgroups : ∀ g ∈ chunk3 (natDecList i.natAbs).reverse,
        ∀ c ∈ g, c.isDigit = true := by
      intro g hg c hc
      exact hR c (chunk3_mem _ g hg c hc)
    have hdata : (idGroup i.natAbs).data
        = (dotJoinRev (chunk3 (natDecList i.natAbs).reverse)).reverse := rfl
    refine ⟨?_, ?_, ?_, ?_⟩
    · unfold formatPrice intLocaleId
      rw [if_neg (by omega), empty_append_str]
    · intro c hc
      rw [hdata, List.mem_reverse] at hc
      rcases mem_dotJoinRev _ c hc with h | ⟨g, hg, hcg⟩
      · exact Or.inr h
      · exact Or.inl (hgroups g hg c hcg)
    · rw [hdata, List.filter_reverse, filter_dotJoinRev _ hgroups,
        chunk3_flatten, List.reverse_reverse]
    · rw [hdata, List.reverse_reverse]
      exact revGrouped_dotJoinRev _ hR

/-- C7 witness: the grouping statement of the theorem applied at the
scenario total 50000, and the custom-quantity statement at a concrete
stored custom item. -/
theorem receipt_grand_total_witness :
    revGrouped 0 ((idGroup (Int.natAbs 50000)).data.reverse) = true
    ∧ (routeMapItem ⟨1, 1, "custom", none, none, none, some 10000, some "Shipping",
        some 10000⟩ none).quantity = 1 := by
  constructor
  · exact ((receipt_grand_total ⟨1, "A", ⟨2026, 1, 1, 0, 0⟩, none, []⟩).2.2.2.1
      50000 (by decide)).2.2.2
  · exact (receipt_grand_total ⟨1, "A", ⟨2026, 1, 1, 0, 0⟩, none, []⟩).2.2.1
      ⟨1, 1, "custom", none, none, none, some 10000, some "Shipping", some 10000⟩
      none rfl
